import Mathlib

/-!
Verification development for the `isfastlyip` service (src/main.rs).

The service answers `GET /<token>`: it filters the HTTP method, applies a
coarse regex shape filter to the path, fetches the provider's published IP
range list from the upstream, and reports whether the token, parsed as an
IPv4 or IPv6 address, falls in any of the published CIDR ranges.

This file shallowly embeds the program: addresses are `Nat` values
(32-bit / 128-bit, with explicit `% 2^w` where the Rust code wraps),
strings are `List Char`, fallible parsing returns `Option`, and the
upstream fetch outcome is an explicit parameter of the request handler.
-/

namespace IsFastlyIp

/-! ### Character-level number reading

Models `Parser::read_number` from Rust's `core::net::parser` (used by
`Ipv4Addr::from_str` / `Ipv6Addr::from_str`) and the equivalent reader used
by the `ipnet` crate for CIDR entries: read all consecutive digits of the
given radix, fail on zero digits, on more than `maxDigits` digits, on a
value exceeding the capacity `cap` of the target integer type (checked
arithmetic), and — when `allowZero = false` — on a leading zero with more
than one digit. -/

/-- Models `char::to_digit radix`: digit value of `c` in the given radix. -/
def digitVal (radix : Nat) (c : Char) : Option Nat :=
  let v :=
    if '0' ≤ c ∧ c ≤ '9' then some (c.toNat - '0'.toNat)
    else if 'a' ≤ c ∧ c ≤ 'z' then some (10 + c.toNat - 'a'.toNat)
    else if 'A' ≤ c ∧ c ≤ 'Z' then some (10 + c.toNat - 'A'.toNat)
    else none
  match v with
  | some d => if d < radix then some d else none
  | none => none

/-- Longest run of digits of the given radix at the head of the input,
as digit values, together with the unconsumed rest. -/
def takeDigits (radix : Nat) : List Char → List Nat × List Char
  | [] => ([], [])
  | c :: cs =>
    match digitVal radix c with
    | some d =>
      let r := takeDigits radix cs
      (d :: r.1, r.2)
    | none => ([], c :: cs)

/-- Accumulated value of a digit list: `acc * radix + d` per digit, the
order in which `read_number` folds them. -/
def digitsVal (radix : Nat) : List Nat → Nat → Nat
  | [], acc => acc
  | d :: ds, acc => digitsVal radix ds (acc * radix + d)

/-- Models `Parser::read_number(radix, Some(maxDigits), allowZero)` with the
checked arithmetic of an integer type whose maximum value is `cap`. -/
def readNumber (radix maxDigits cap : Nat) (allowZero : Bool)
    (s : List Char) : Option (Nat × List Char) :=
  let r := takeDigits radix s
  let ds := r.1
  if ds.isEmpty then none
  else if maxDigits < ds.length then none
  else if cap < digitsVal radix ds 0 then none
  else if allowZero = false ∧ 1 < ds.length ∧ ds.head? = some 0 then none
  else some (digitsVal radix ds 0, r.2)

/-! ### IPv4 textual address parsing

Models `Parser::read_ipv4_addr`: four octets separated by literal dots,
each octet a `u8` read with at most 3 digits. The standard-library parser
(used for the candidate address in `main.rs`) rejects leading zeros
(`allowZero = false`); the copy of the old parser bundled with the `ipnet`
crate (used for CIDR entries) accepts them (`allowZero = true`). -/

/-- One octet: `read_number(10, Some(3), allowZero)` into a `u8`. -/
def readOctet (allowZero : Bool) (s : List Char) : Option (Nat × List Char) :=
  readNumber 10 3 255 allowZero s

/-- Consume a literal dot. -/
def readDot : List Char → Option (List Char)
  | '.' :: rest => some rest
  | _ => none

/-- Models `Parser::read_ipv4_addr`: `octet '.' octet '.' octet '.' octet`,
returning the 32-bit value and the unconsumed rest. -/
def read_ipv4_addr (allowZero : Bool) (s : List Char) : Option (Nat × List Char) :=
  match readOctet allowZero s with
  | none => none
  | some (a, s1) =>
    match readDot s1 with
    | none => none
    | some s2 =>
      match readOctet allowZero s2 with
      | none => none
      | some (b, s3) =>
        match readDot s3 with
        | none => none
        | some s4 =>
          match readOctet allowZero s4 with
          | none => none
          | some (c, s5) =>
            match readDot s5 with
            | none => none
            | some s6 =>
              match readOctet allowZero s6 with
              | none => none
              | some (d, s7) => some (((a * 256 + b) * 256 + c) * 256 + d, s7)

/-- Models `Ipv4Addr::from_str` (strict standard-library grammar, used on
the candidate token in `main.rs`): the whole input must be consumed. -/
def parseIpv4Addr (s : List Char) : Option Nat :=
  match read_ipv4_addr false s with
  | some (v, []) => some v
  | _ => none

/-! ### IPv6 textual address parsing

Models `Parser::read_ipv6_addr` from Rust's `core::net::parser`: a head run
of colon-separated 16-bit hex groups (with an optional trailing embedded
IPv4 address occupying two groups), then — when fewer than 8 groups were
read — a literal `::` followed by a tail run filling the low groups, the
gap being zero groups. -/

/-- Models `Parser::read_separator(':', i, inner)`: when not at the first
slot (`isFirst = false`) a separating colon is consumed first; the whole
read is atomic (no consumption on failure). -/
def readSep (isFirst : Bool) (inner : List Char → Option (Nat × List Char))
    (s : List Char) : Option (Nat × List Char) :=
  if isFirst then inner s
  else
    match s with
    | ':' :: rest => inner rest
    | _ => none

/-- Models `read_groups` of `read_ipv6_addr`, with `n` slots remaining:
returns the group values read, whether a trailing embedded IPv4 address was
read, and the unconsumed rest. An embedded IPv4 address is attempted only
while at least two slots remain. `az` is threaded to the embedded IPv4
octet reader (leading-zero policy of the surrounding parser). -/
def read_groups (az : Bool) : Nat → Bool → List Char → List Nat × Bool × List Char
  | 0, _, s => ([], false, s)
  | n + 1, isFirst, s =>
    let tryGroup :=
      match readSep isFirst (readNumber 16 4 65535 true) s with
      | some (g, rest) =>
        let r := read_groups az n false rest
        (g :: r.1, r.2.1, r.2.2)
      | none => ([], false, s)
    if 1 ≤ n then
      match readSep isFirst (read_ipv4_addr az) s with
      | some (v4, rest) => ([v4 / 65536, v4 % 65536], true, rest)
      | none => tryGroup
    else tryGroup

/-- Big-endian accumulation of 16-bit groups into a 128-bit value. -/
def groupsVal : List Nat → Nat → Nat
  | [], acc => acc
  | g :: gs, acc => groupsVal gs (acc * 65536 + g)

/-- Models `Parser::read_ipv6_addr`: head groups, then `::` and tail groups
when the head has fewer than 8; an embedded IPv4 head is only legal when it
completes all 8 groups. Returns the 128-bit value and unconsumed rest. -/
def read_ipv6_addr (az : Bool) (s : List Char) : Option (Nat × List Char) :=
  let h := read_groups az 8 true s
  let head := h.1
  let headV4 := h.2.1
  let rest := h.2.2
  if head.length = 8 then some (groupsVal head 0, rest)
  else if headV4 then none
  else
    match rest with
    | ':' :: ':' :: rest2 =>
      let limit := 8 - (head.length + 1)
      let t := read_groups az limit true rest2
      let tail := t.1
      let full := head ++ List.replicate (8 - head.length - tail.length) 0 ++ tail
      some (groupsVal full 0, t.2.2)
    | _ => none

/-- Models `Ipv6Addr::from_str` (strict standard-library grammar, used on
the candidate token in `main.rs`): the whole input must be consumed. -/
def parseIpv6Addr (s : List Char) : Option Nat :=
  match read_ipv6_addr false s with
  | some (v, []) => some v
  | _ => none

/-! ### Network prefixes (the `ipnet` crate)

`Ipv4Net` / `Ipv6Net` hold the base address exactly as given (host bits are
NOT normalized away) plus a prefix length, bounded at construction time
(`Ipv4Net::new` / `Ipv6Net::new` reject lengths beyond 32 / 128).
`contains` compares against the network / broadcast range, where masks are
computed with checked shifts: `u32::MAX.checked_shl(32 - len).unwrap_or(0)`
and `u32::MAX.checked_shr(len).unwrap_or(0)` (a checked shift by the full
width or more yields `None`). -/

/-- An IPv4 network prefix as held by `ipnet::Ipv4Net`. -/
structure Ipv4Net where
  addr : Nat
  len : Nat
  deriving DecidableEq

/-- An IPv6 network prefix as held by `ipnet::Ipv6Net`. -/
structure Ipv6Net where
  addr : Nat
  len : Nat
  deriving DecidableEq

/-- Models `Ipv4Net::netmask` (`u32::MAX.checked_shl(32 - len).unwrap_or(0)`). -/
def ipv4Netmask (len : Nat) : Nat :=
  if 32 ≤ 32 - len then 0 else ((2 ^ 32 - 1) <<< (32 - len)) % 2 ^ 32

/-- Models `Ipv4Net::hostmask` (`u32::MAX.checked_shr(len).unwrap_or(0)`). -/
def ipv4Hostmask (len : Nat) : Nat :=
  if 32 ≤ len then 0 else (2 ^ 32 - 1) >>> len

/-- Models `Ipv6Net::netmask` (`u128::MAX.checked_shl(128 - len).unwrap_or(0)`). -/
def ipv6Netmask (len : Nat) : Nat :=
  if 128 ≤ 128 - len then 0 else ((2 ^ 128 - 1) <<< (128 - len)) % 2 ^ 128

/-- Models `Ipv6Net::hostmask` (`u128::MAX.checked_shr(len).unwrap_or(0)`). -/
def ipv6Hostmask (len : Nat) : Nat :=
  if 128 ≤ len then 0 else (2 ^ 128 - 1) >>> len

/-- Models `Ipv4Net::network` (base address with host bits masked off). -/
def Ipv4Net.network (net : Ipv4Net) : Nat := net.addr &&& ipv4Netmask net.len

/-- Models `Ipv4Net::broadcast` (base address with host bits all set). -/
def Ipv4Net.broadcast (net : Ipv4Net) : Nat := net.addr ||| ipv4Hostmask net.len

/-- Models `<Ipv4Net as Contains<&Ipv4Addr>>::contains`:
`self.network() <= *other && *other <= self.broadcast()`. -/
def Ipv4Net.contains (net : Ipv4Net) (a : Nat) : Bool :=
  decide (net.network ≤ a) && decide (a ≤ net.broadcast)

/-- Models `Ipv6Net::network`. -/
def Ipv6Net.network (net : Ipv6Net) : Nat := net.addr &&& ipv6Netmask net.len

/-- Models `Ipv6Net::broadcast` (last address of the network). -/
def Ipv6Net.broadcast (net : Ipv6Net) : Nat := net.addr ||| ipv6Hostmask net.len

/-- Models `<Ipv6Net as Contains<&Ipv6Addr>>::contains`. -/
def Ipv6Net.contains (net : Ipv6Net) (a : Nat) : Bool :=
  decide (net.network ≤ a) && decide (a ≤ net.broadcast)

/-- Models `Ipv4Net::from_str` (the `ipnet` crate's parser, which accepts
leading zeros in octets): address, `/`, prefix length read into a `u8`,
then the `Ipv4Net::new` bound check `len ≤ 32`. -/
def parseIpv4Net (s : List Char) : Option Ipv4Net :=
  match read_ipv4_addr true s with
  | some (a, '/' :: rest) =>
    match readNumber 10 3 255 true rest with
    | some (n, []) => if n ≤ 32 then some ⟨a, n⟩ else none
    | _ => none
  | _ => none

/-- Models `Ipv6Net::from_str`: address, `/`, prefix length read into a
`u8`, then the `Ipv6Net::new` bound check `len ≤ 128`. -/
def parseIpv6Net (s : List Char) : Option Ipv6Net :=
  match read_ipv6_addr true s with
  | some (a, '/' :: rest) =>
    match readNumber 10 3 255 true rest with
    | some (n, []) => if n ≤ 128 then some ⟨a, n⟩ else none
    | _ => none
  | _ => none

/-! ### The coarse shape filter

`main.rs` line 32 builds the anchored regex

  `^/((?:[0-9]{1,3}.){3}[0-9]{1,3}|(([a-f0-9:]+:+)+[a-f0-9]+))$`

and `is_match`es it against the whole path. Note the unescaped `.` in the
IPv4 alternative: it matches any character other than a newline. The
pattern is embedded as a set-of-positions matcher over the fixed input: a
sub-matcher maps a start position to the list of positions it can end at,
anchored matching succeeds when position `length` is reachable from 0. -/

/-- Deduplicate a position list (quadratic, accumulator-based). -/
def nubFrom : List Nat → List Nat → List Nat
  | _, [] => []
  | acc, x :: xs => if acc.contains x then nubFrom acc xs else x :: nubFrom (x :: acc) xs

/-- Deduplicate a position list. -/
def nub (l : List Nat) : List Nat := nubFrom [] l

/-- Single-character class: consume one character satisfying `p`. -/
def mChar (s : List Char) (p : Char → Bool) (i : Nat) : List Nat :=
  match s.get? i with
  | some c => if p c then [i + 1] else []
  | none => []

/-- Concatenation of two sub-matchers. -/
def mSeq (f g : Nat → List Nat) (i : Nat) : List Nat := nub ((f i).flatMap g)

/-- Exactly `n` repetitions. -/
def mReps (f : Nat → List Nat) : Nat → Nat → List Nat
  | 0, i => [i]
  | n + 1, i => nub ((f i).flatMap (mReps f n))

/-- Between `lo` and `hi` repetitions. -/
def mRange (f : Nat → List Nat) (lo hi : Nat) (i : Nat) : List Nat :=
  nub ((List.range' lo (hi + 1 - lo)).flatMap fun n => mReps f n i)

/-- One or more repetitions (`+`); `fuel` bounds the number of repetitions,
and `input length + 1` is enough since every repetition consumes input. -/
def mPlus (f : Nat → List Nat) : Nat → Nat → List Nat
  | 0, _ => []
  | fuel + 1, i => nub ((f i).flatMap fun j => j :: mPlus f fuel j)

/-- Models `re_ip46.is_match(path)` for the regex of `main.rs` line 32. -/
def reMatch (path : String) : Bool :=
  let s := path.toList
  let fuel := s.length + 1
  let digit := mChar s fun c => decide ('0' ≤ c) && decide (c ≤ '9')
  let anyc := mChar s fun c => !(c == '\n')
  let hex := mChar s fun c =>
    (decide ('0' ≤ c) && decide (c ≤ '9')) || (decide ('a' ≤ c) && decide (c ≤ 'f'))
  let hexColon := mChar s fun c =>
    (decide ('0' ≤ c) && decide (c ≤ '9')) || (decide ('a' ≤ c) && decide (c ≤ 'f'))
      || c == ':'
  let colon := mChar s fun c => c == ':'
  let alt1 := mSeq (mReps (mSeq (mRange digit 1 3) anyc) 3) (mRange digit 1 3)
  let alt2 := mSeq (mPlus (mSeq (mPlus hexColon fuel) (mPlus colon fuel)) fuel) (mPlus hex fuel)
  let whole := mSeq (mChar s fun c => c == '/') fun i => nub (alt1 i ++ alt2 i)
  (whole 0).contains s.length

/-! ### The request handler (`main` of `main.rs`)

The handler's effects are made explicit: the method and path come in as
strings, and the outcome of the backend fetch plus JSON body decode
(`req_backend.send(BACKEND_NAME)?` then `resp.take_body_json::<FastlyIpList>()?`,
both external I/O) is a parameter — `none` means the send or the decode
failed, in which case the corresponding `?` propagates an error out of
`main` (surfaced by the platform as a server error). Errors propagated via
`?` are modelled as `Except.error`; `Ok(Response)` as `Except.ok`. -/

/-- The JSON body of the upstream `public-ip-list` document
(struct `FastlyIpList` of `main.rs`). -/
structure FastlyIpList where
  addresses : List String
  ipv6_addresses : List String
  deriving DecidableEq

/-- An HTTP response assembled by `main`: status plus body text. -/
structure Resp where
  status : Nat
  body : String
  deriving DecidableEq

/-- A request error propagated out of `main` with `?`. -/
inductive MainError where
  /-- The backend send failed, or its body failed to decode as `FastlyIpList`. -/
  | fetchFailed
  /-- A CIDR entry failed to parse as `Ipv4Net` / `Ipv6Net` (the underlying
  `AddrParseError` does not carry the offending entry's text or position). -/
  | badCidr
  deriving DecidableEq

/-- serde_json serialization of `IpCheckResult { is_fastly_ip: true }`. -/
def jsonTrue : String := "\x7b\"is_fastly_ip\":true\x7d"

/-- serde_json serialization of `IpCheckResult { is_fastly_ip: false }`. -/
def jsonFalse : String := "\x7b\"is_fastly_ip\":false\x7d"

/-- The `VALID_METHODS` array of `main.rs`. -/
def validMethods : List String := ["GET"]

/-- The backend request of `main.rs` lines 45-47: URL, TTL caching
directive (`with_ttl(60 * 60 * 24 * 7)`), and `HOST` header. -/
structure BackendReq where
  url : String
  ttl : Nat
  hostHeader : String

/-- Models `req_backend` of `main.rs`. -/
def req_backend : BackendReq :=
  { url := "https://dummy/public-ip-list"
    ttl := 60 * 60 * 24 * 7
    hostHeader := "api.fastly.com" }

/-- The IPv4 for-loop of `main.rs` lines 53-59: entries are parsed one by
one (`ipv4net.parse()?` — a malformed entry propagates an error), and the
loop returns the `true` response as soon as a parsed net contains the
candidate. Falling off the loop reaches the final `false` response. -/
def v4loop : List String → Nat → Except MainError Resp
  | [], _ => .ok ⟨200, jsonFalse⟩
  | e :: rest, a =>
    match parseIpv4Net e.toList with
    | none => .error .badCidr
    | some net => if net.contains a then .ok ⟨200, jsonTrue⟩ else v4loop rest a

/-- The IPv6 for-loop of `main.rs` lines 61-67, same shape as `v4loop`. -/
def v6loop : List String → Nat → Except MainError Resp
  | [], _ => .ok ⟨200, jsonFalse⟩
  | e :: rest, a =>
    match parseIpv6Net e.toList with
    | none => .error .badCidr
    | some net => if net.contains a then .ok ⟨200, jsonTrue⟩ else v6loop rest a

/-- Models `main` of `main.rs`: method filter, shape filter, backend fetch
plus JSON decode (outcome passed in as `fetch`), then candidate parsing and
the per-family membership loops. The candidate token is the path minus its
leading `/` (`path[1..]`). -/
def mainHandler (method path : String) (fetch : Option FastlyIpList) :
    Except MainError Resp :=
  if !(validMethods.contains method) then
    .ok ⟨404, "Only GET method is allowed"⟩
  else if !(reMatch path) then
    .ok ⟨404, "Valid IP address not found"⟩
  else
    let ip_addr := path.toList.drop 1
    match fetch with
    | none => .error .fetchFailed
    | some ip_list =>
      match parseIpv4Addr ip_addr with
      | some ipv4 => v4loop ip_list.addresses ipv4
      | none =>
        match parseIpv6Addr ip_addr with
        | some ipv6 => v6loop ip_list.ipv6_addresses ipv6
        | none => .ok ⟨404, "Valid IP address not found"⟩

/-! ### Spec-side definitions for the refinement claims

The spec describes membership as a masked comparison on the `n`
most-significant bits; `ipnet` implements it as a network/broadcast range
check. The definitions below follow the spec's words, to be compared with
the range check above. -/

/-- The mask selecting the `n` most-significant bits of a 32-bit word, per
the spec's words (compare with the source-side `ipv4Netmask`). -/
def specMaskV4 (n : Nat) : Nat := 2 ^ 32 - 2 ^ (32 - n)

/-- The mask selecting the `n` most-significant bits of a 128-bit word, per
the spec's words (compare with the source-side `ipv6Netmask`). -/
def specMaskV6 (n : Nat) : Nat := 2 ^ 128 - 2 ^ (128 - n)

/-- The membership scan over an already-parsed IPv4 range list: the loop of
`main.rs` lines 53-59 returns `true` as soon as some net contains the
candidate (the spec's `MembershipEngine.contains` for the IPv4 family). -/
def ipv4ListContains (nets : List Ipv4Net) (a : Nat) : Bool :=
  nets.any fun net => net.contains a

/-- The membership scan over an already-parsed IPv6 range list (loop of
`main.rs` lines 61-67). -/
def ipv6ListContains (nets : List Ipv6Net) (a : Nat) : Bool :=
  nets.any fun net => net.contains a

/-! ### Bitwise mask arithmetic -/

/-- A left-aligned mask extracts the bits from `k` up: `x &&& (2^w - 2^k)`
is `x` with its low `k` bits cleared. -/
theorem land_high (x w k : Nat) (hk : k ≤ w) (hx : x < 2 ^ w) :
    x &&& (2 ^ w - 2 ^ k) = x / 2 ^ k * 2 ^ k := by
  have h1 : 2 ^ w - 2 ^ k = (2 ^ (w - k) - 1) <<< k := by
    rw [Nat.shiftLeft_eq, Nat.sub_mul, one_mul, ← Nat.pow_add, Nat.sub_add_cancel hk]
  have h2 : x / 2 ^ k * 2 ^ k = (x >>> k) <<< k := by
    rw [Nat.shiftRight_eq_div_pow, Nat.shiftLeft_eq]
  rw [h1, h2]
  apply Nat.eq_of_testBit_eq
  intro i
  simp only [Nat.testBit_and, Nat.testBit_shiftLeft, Nat.testBit_shiftRight,
    Nat.testBit_two_pow_sub_one]
  by_cases hik : k ≤ i
  · by_cases hiw : i < w
    · have e1 : i - k < w - k := by omega
      have e2 : k + (i - k) = i := by omega
      simp [ge_iff_le, hik, e1, e2]
    · have hxw : x.testBit i = false :=
        Nat.testBit_lt_two_pow
          (lt_of_lt_of_le hx (Nat.pow_le_pow_right (by norm_num) (by omega)))
      simp [ge_iff_le, hik, hxw, show ¬(i - k < w - k) by omega]
  · simp [ge_iff_le, hik]

/-- A right-aligned all-ones mask fills the low `k` bits:
`x ||| (2^k - 1)` is `x` rounded up to the next low-bits-all-ones value. -/
theorem lor_low (x k : Nat) : x ||| (2 ^ k - 1) = x / 2 ^ k * 2 ^ k + (2 ^ k - 1) := by
  have hlt : 2 ^ k - 1 < 2 ^ k := by have := Nat.two_pow_pos k; omega
  have h3 : x / 2 ^ k * 2 ^ k + (2 ^ k - 1) = (2 ^ k * (x / 2 ^ k)) ||| (2 ^ k - 1) := by
    rw [← Nat.mul_add_lt_is_or hlt (x / 2 ^ k), Nat.mul_comm]
  rw [h3]
  have h2 : 2 ^ k * (x / 2 ^ k) = (x >>> k) <<< k := by
    rw [Nat.shiftRight_eq_div_pow, Nat.shiftLeft_eq, Nat.mul_comm]
  rw [h2]
  apply Nat.eq_of_testBit_eq
  intro i
  simp only [Nat.testBit_or, Nat.testBit_shiftLeft, Nat.testBit_shiftRight,
    Nat.testBit_two_pow_sub_one]
  by_cases hik : k ≤ i
  · have e2 : k + (i - k) = i := by omega
    simp [ge_iff_le, hik, e2, show ¬(i < k) by omega]
  · simp [ge_iff_le, hik, show i < k by omega]

/-- Membership in the interval from `b` with low `k` bits cleared to `b`
with low `k` bits set is exactly agreement with `b` on the high bits: this
is the bridge between `ipnet`'s range check and the spec's masked
comparison. -/
theorem interval_iff_mask (w k a b : Nat) (hk : k ≤ w) (ha : a < 2 ^ w) (hb : b < 2 ^ w) :
    ((b &&& (2 ^ w - 2 ^ k)) ≤ a ∧ a ≤ (b ||| (2 ^ k - 1))) ↔
      a &&& (2 ^ w - 2 ^ k) = b &&& (2 ^ w - 2 ^ k) := by
  rw [land_high a w k hk ha, land_high b w k hk hb, lor_low b k]
  have hp : 0 < 2 ^ k := Nat.two_pow_pos k
  constructor
  · rintro ⟨h1, h2⟩
    have hl : b / 2 ^ k ≤ a / 2 ^ k := (Nat.le_div_iff_mul_le hp).2 h1
    have hmul : (b / 2 ^ k + 1) * 2 ^ k = b / 2 ^ k * 2 ^ k + 2 ^ k := by ring
    have hu : a / 2 ^ k < b / 2 ^ k + 1 := (Nat.div_lt_iff_lt_mul hp).2 (by omega)
    have : a / 2 ^ k = b / 2 ^ k := by omega
    rw [this]
  · intro h
    have hq : a / 2 ^ k = b / 2 ^ k := Nat.eq_of_mul_eq_mul_right hp h
    refine ⟨?_, ?_⟩
    · rw [← h]; exact Nat.div_mul_le_self a (2 ^ k)
    · rw [← hq]
      have hdm := Nat.div_add_mod a (2 ^ k)
      have hcm : 2 ^ k * (a / 2 ^ k) = a / 2 ^ k * 2 ^ k := Nat.mul_comm _ _
      have hml := Nat.mod_lt a hp
      omega

/-- `u32::MAX << k` (wrapping) is the left-aligned mask `2^32 - 2^k`. -/
theorem maxshl_mod (w k : Nat) (hk : k ≤ w) :
    ((2 ^ w - 1) <<< k) % 2 ^ w = 2 ^ w - 2 ^ k := by
  rw [Nat.shiftLeft_eq]
  have hkw : 2 ^ k ≤ 2 ^ w := Nat.pow_le_pow_right (by norm_num) hk
  have hp1 : 1 ≤ 2 ^ k := Nat.one_le_two_pow
  have hp2 : 1 ≤ 2 ^ w := Nat.one_le_two_pow
  have h1 : (2 ^ w - 1) * 2 ^ k = (2 ^ w - 2 ^ k) + (2 ^ k - 1) * 2 ^ w := by
    have e1 : (2 ^ w - 1) * 2 ^ k = 2 ^ w * 2 ^ k - 1 * 2 ^ k :=
      Nat.mul_sub_right_distrib _ _ _
    have e2 : (2 ^ k - 1) * 2 ^ w = 2 ^ k * 2 ^ w - 1 * 2 ^ w :=
      Nat.mul_sub_right_distrib _ _ _
    have hcomm : 2 ^ k * 2 ^ w = 2 ^ w * 2 ^ k := Nat.mul_comm _ _
    have e3 : 2 ^ w * 1 ≤ 2 ^ w * 2 ^ k := Nat.mul_le_mul_left _ hp1
    have e4 : 2 ^ k * 1 ≤ 2 ^ k * 2 ^ w := Nat.mul_le_mul_left _ hp2
    omega
  rw [h1, Nat.add_mul_mod_self_right]
  exact Nat.mod_eq_of_lt (by omega)

/-- `u32::MAX >> k` is the right-aligned mask `2^(32-k) - 1`. -/
theorem maxshr_eq (w k : Nat) (hk : k ≤ w) :
    (2 ^ w - 1) >>> k = 2 ^ (w - k) - 1 := by
  rw [Nat.shiftRight_eq_div_pow]
  have hp1 : 1 ≤ 2 ^ k := Nat.one_le_two_pow
  have hp2 : 1 ≤ 2 ^ (w - k) := Nat.one_le_two_pow
  have he : 2 ^ k * 2 ^ (w - k) = 2 ^ w := by
    rw [← Nat.pow_add, Nat.add_sub_cancel' hk]
  have hkw : 2 ^ k ≤ 2 ^ w := Nat.pow_le_pow_right (by norm_num) hk
  have hsplit : 2 ^ w - 1 = 2 ^ k * (2 ^ (w - k) - 1) + (2 ^ k - 1) := by
    have e1 : 2 ^ k * (2 ^ (w - k) - 1) = 2 ^ k * 2 ^ (w - k) - 2 ^ k * 1 :=
      Nat.mul_sub_left_distrib _ _ _
    omega
  rw [hsplit, Nat.mul_add_div (Nat.two_pow_pos k)]
  rw [Nat.div_eq_of_lt (by have := Nat.two_pow_pos k; omega), Nat.add_zero]

/-- The source-side `ipv4Netmask` equals the spec-side mask of the `len`
most-significant bits. -/
theorem ipv4Netmask_eq (n : Nat) (hn : n ≤ 32) : ipv4Netmask n = specMaskV4 n := by
  unfold ipv4Netmask specMaskV4
  by_cases h0 : n = 0
  · subst h0; norm_num
  · rw [if_neg (by omega)]
    exact maxshl_mod 32 (32 - n) (by omega)

/-- The source-side `ipv4Hostmask` is the all-ones mask on the host bits. -/
theorem ipv4Hostmask_eq (n : Nat) (hn : n ≤ 32) : ipv4Hostmask n = 2 ^ (32 - n) - 1 := by
  unfold ipv4Hostmask
  by_cases h32 : 32 ≤ n
  · have : n = 32 := by omega
    subst this
    norm_num
  · rw [if_neg h32]
    exact maxshr_eq 32 n (by omega)

/-- The source-side `ipv6Netmask` equals the spec-side mask of the `len`
most-significant bits. -/
theorem ipv6Netmask_eq (n : Nat) (hn : n ≤ 128) : ipv6Netmask n = specMaskV6 n := by
  unfold ipv6Netmask specMaskV6
  by_cases h0 : n = 0
  · subst h0; norm_num
  · rw [if_neg (by omega)]
    exact maxshl_mod 128 (128 - n) (by omega)

/-- The source-side `ipv6Hostmask` is the all-ones mask on the host bits. -/
theorem ipv6Hostmask_eq (n : Nat) (hn : n ≤ 128) : ipv6Hostmask n = 2 ^ (128 - n) - 1 := by
  unfold ipv6Hostmask
  by_cases h128 : 128 ≤ n
  · have : n = 128 := by omega
    subst this
    norm_num
  · rw [if_neg h128]
    exact maxshr_eq 128 n (by omega)

/-- Refinement of `Ipv4Net::contains`: the range check is the spec's masked
comparison on the `len` most-significant bits. -/
theorem Ipv4Net.contains_iff_mask_v4 (net : Ipv4Net) (a : Nat) (hl : net.len ≤ 32)
    (hb : net.addr < 2 ^ 32) (ha : a < 2 ^ 32) :
    net.contains a = true ↔
      a &&& specMaskV4 net.len = net.addr &&& specMaskV4 net.len := by
  unfold Ipv4Net.contains Ipv4Net.network Ipv4Net.broadcast
  rw [Bool.and_eq_true, decide_eq_true_eq, decide_eq_true_eq,
    ipv4Netmask_eq _ hl, ipv4Hostmask_eq _ hl]
  unfold specMaskV4
  exact interval_iff_mask 32 (32 - net.len) a net.addr (by omega) ha hb

/-- Refinement of `Ipv6Net::contains`: the range check is the spec's masked
comparison on the `len` most-significant bits. -/
theorem Ipv6Net.contains_iff_mask_v6 (net : Ipv6Net) (a : Nat) (hl : net.len ≤ 128)
    (hb : net.addr < 2 ^ 128) (ha : a < 2 ^ 128) :
    net.contains a = true ↔
      a &&& specMaskV6 net.len = net.addr &&& specMaskV6 net.len := by
  unfold Ipv6Net.contains Ipv6Net.network Ipv6Net.broadcast
  rw [Bool.and_eq_true, decide_eq_true_eq, decide_eq_true_eq,
    ipv6Netmask_eq _ hl, ipv6Hostmask_eq _ hl]
  unfold specMaskV6
  exact interval_iff_mask 128 (128 - net.len) a net.addr (by omega) ha hb

/-! ### Handler reduction helpers -/

/-- On a `GET` whose path passes the shape filter, the handler is the fetch
match followed by candidate parsing and the family loops. -/
theorem mainHandler_get (path : String) (fetch : Option FastlyIpList)
    (hre : reMatch path = true) :
    mainHandler "GET" path fetch =
      (match fetch with
      | none => .error .fetchFailed
      | some ip_list =>
        match parseIpv4Addr (path.toList.drop 1) with
        | some ipv4 => v4loop ip_list.addresses ipv4
        | none =>
          match parseIpv6Addr (path.toList.drop 1) with
          | some ipv6 => v6loop ip_list.ipv6_addresses ipv6
          | none => .ok ⟨404, "Valid IP address not found"⟩) := by
  unfold mainHandler
  rw [hre]
  rfl

/-- On a `GET` whose path fails the shape filter, the handler answers 404
without consulting the fetch outcome. -/
theorem mainHandler_noMatch (method path : String) (fetch : Option FastlyIpList)
    (hm : validMethods.contains method = true) (hre : reMatch path = false) :
    mainHandler method path fetch = .ok ⟨404, "Valid IP address not found"⟩ := by
  unfold mainHandler
  rw [hm, hre]
  rfl

/-- A prefix of length zero contains every 32-bit candidate. -/
theorem Ipv4Net.contains_of_len_zero_v4 (net : Ipv4Net) (a : Nat)
    (hl : net.len = 0) (ha : a < 2 ^ 32) : net.contains a = true := by
  unfold Ipv4Net.contains Ipv4Net.network Ipv4Net.broadcast
  rw [hl, Bool.and_eq_true, decide_eq_true_eq, decide_eq_true_eq]
  refine ⟨?_, ?_⟩
  · rw [show ipv4Netmask 0 = 0 from rfl, Nat.and_zero]
    exact Nat.zero_le a
  · rw [ipv4Hostmask_eq 0 (by norm_num), lor_low]
    omega

/-- A prefix of length zero contains every 128-bit candidate. -/
theorem Ipv6Net.contains_of_len_zero_v6 (net : Ipv6Net) (a : Nat)
    (hl : net.len = 0) (ha : a < 2 ^ 128) : net.contains a = true := by
  unfold Ipv6Net.contains Ipv6Net.network Ipv6Net.broadcast
  rw [hl, Bool.and_eq_true, decide_eq_true_eq, decide_eq_true_eq]
  refine ⟨?_, ?_⟩
  · rw [show ipv6Netmask 0 = 0 from rfl, Nat.and_zero]
    exact Nat.zero_le a
  · rw [ipv6Hostmask_eq 0 (by norm_num), lor_low]
    omega

/-- String-level membership example: parse an IPv4 CIDR prefix and an IPv4
candidate as `main.rs` does, then run the containment test. -/
def v4Example (netStr addrStr : String) : Option Bool :=
  match parseIpv4Net netStr.toList, parseIpv4Addr addrStr.toList with
  | some net, some a => some (net.contains a)
  | _, _ => none

/-- String-level membership example for the IPv6 family. -/
def v6Example (netStr addrStr : String) : Option Bool :=
  match parseIpv6Net netStr.toList, parseIpv6Addr addrStr.toList with
  | some net, some a => some (net.contains a)
  | _, _ => none

/-! ### Claim theorems -/

/-- C1: for every IPv4 candidate and IPv4 prefix of length `n ≤ 32`, the
membership test holds iff the `n` most-significant bits of the candidate
equal the `n` most-significant bits of the prefix's base address (host bits
of the base are masked at test time, not assumed zero); analogously for
IPv6 with 128 bits; in particular 151.101.0.0/16 contains 151.101.0.1 and
not 151.102.0.0, and 2a04:4e40::/32 contains
2a04:4e40:7f6:9100:f8c9:7bf6:e4f5:c5f3 and not
240d:1a:7f6:9100:f8c9:7bf6:e4f5:c5f3. -/
theorem C1_membership_is_masked_comparison :
    (∀ (net : Ipv4Net) (a : Nat), net.len ≤ 32 → net.addr < 2 ^ 32 → a < 2 ^ 32 →
      (net.contains a = true ↔
        a &&& specMaskV4 net.len = net.addr &&& specMaskV4 net.len))
    ∧ (∀ (net : Ipv6Net) (a : Nat), net.len ≤ 128 → net.addr < 2 ^ 128 → a < 2 ^ 128 →
      (net.contains a = true ↔
        a &&& specMaskV6 net.len = net.addr &&& specMaskV6 net.len))
    ∧ v4Example "151.101.0.0/16" "151.101.0.1" = some true
    ∧ v4Example "151.101.0.0/16" "151.102.0.0" = some false
    ∧ v6Example "2a04:4e40::/32" "2a04:4e40:7f6:9100:f8c9:7bf6:e4f5:c5f3" = some true
    ∧ v6Example "2a04:4e40::/32" "240d:1a:7f6:9100:f8c9:7bf6:e4f5:c5f3" = some false :=
  ⟨fun net a hl hb ha => Ipv4Net.contains_iff_mask_v4 net a hl hb ha,
   fun net a hl hb ha => Ipv6Net.contains_iff_mask_v6 net a hl hb ha,
   rfl, rfl, rfl, rfl⟩

/-- Witness for C1 at the concrete prefix 151.101.0.0/16 and candidate
151.101.0.1 (values 2539978752 and 2539978753). -/
theorem C1_membership_is_masked_comparison_witness :
    (Ipv4Net.mk 2539978752 16).contains 2539978753 = true ↔
      2539978753 &&& specMaskV4 16 = 2539978752 &&& specMaskV4 16 :=
  C1_membership_is_masked_comparison.1 (Ipv4Net.mk 2539978752 16) 2539978753
    (by decide) (by decide) (by decide)

/-- C5: a prefix of length 0 in the candidate's family makes the
membership scan return true, regardless of the candidate's value and of
that prefix's base address. -/
theorem C5_zero_length_prefix_matches_everything :
    (∀ (nets : List Ipv4Net) (a : Nat), a < 2 ^ 32 →
      (∃ net ∈ nets, net.len = 0) → ipv4ListContains nets a = true)
    ∧ (∀ (nets : List Ipv6Net) (a : Nat), a < 2 ^ 128 →
      (∃ net ∈ nets, net.len = 0) → ipv6ListContains nets a = true) := by
  constructor
  · rintro nets a ha ⟨net, hmem, hlen⟩
    unfold ipv4ListContains
    rw [List.any_eq_true]
    exact ⟨net, hmem, Ipv4Net.contains_of_len_zero_v4 net a hlen ha⟩
  · rintro nets a ha ⟨net, hmem, hlen⟩
    unfold ipv6ListContains
    rw [List.any_eq_true]
    exact ⟨net, hmem, Ipv6Net.contains_of_len_zero_v6 net a hlen ha⟩

/-- Witness for C5: a /0 prefix with nonzero base address matches an
unrelated candidate. -/
theorem C5_zero_length_prefix_matches_everything_witness :
    ipv4ListContains [Ipv4Net.mk 123456789 0] 42 = true :=
  C5_zero_length_prefix_matches_everything.1 [Ipv4Net.mk 123456789 0] 42
    (by decide) ⟨Ipv4Net.mk 123456789 0, by decide, rfl⟩

/-- C6: a valid candidate whose family's range-list sequence is empty gets
membership `false` and a 200 response with JSON body
`\x7b"is_fastly_ip":false\x7d`, never an error. -/
theorem C6_empty_family_list_yields_false :
    (∀ (path : String) (a : Nat) (v6s : List String),
      reMatch path = true →
      parseIpv4Addr (path.toList.drop 1) = some a →
      mainHandler "GET" path (some ⟨[], v6s⟩) = .ok ⟨200, jsonFalse⟩ ∧
        ipv4ListContains [] a = false)
    ∧ (∀ (path : String) (b : Nat) (v4s : List String),
      reMatch path = true →
      parseIpv4Addr (path.toList.drop 1) = none →
      parseIpv6Addr (path.toList.drop 1) = some b →
      mainHandler "GET" path (some ⟨v4s, []⟩) = .ok ⟨200, jsonFalse⟩ ∧
        ipv6ListContains [] b = false) := by
  constructor
  · intro path a v6s hre hp4
    rw [mainHandler_get _ _ hre, hp4]
    exact ⟨rfl, rfl⟩
  · intro path b v4s hre hp4 hp6
    rw [mainHandler_get _ _ hre, hp4, hp6]
    exact ⟨rfl, rfl⟩

/-- Witness for C6 at `GET /8.8.8.8` with an empty IPv4 list. -/
theorem C6_empty_family_list_yields_false_witness :
    mainHandler "GET" "/8.8.8.8" (some ⟨[], ["2a04:4e40::/32"]⟩) = .ok ⟨200, jsonFalse⟩ ∧
      ipv4ListContains [] 134744072 = false :=
  C6_empty_family_list_yields_false.1 "/8.8.8.8" 134744072 ["2a04:4e40::/32"] rfl rfl

/-- C7: any non-GET method gets status 404 with body
"Only GET method is allowed"; the response does not depend on the path or
on the fetch outcome (no path inspection, fetch, or parsing happens). -/
theorem C7_non_get_rejected (method path : String) (fetch : Option FastlyIpList)
    (h : method ≠ "GET") :
    mainHandler method path fetch = .ok ⟨404, "Only GET method is allowed"⟩ := by
  have hc : validMethods.contains method = false := by
    simp [validMethods]
    exact h
  unfold mainHandler
  rw [hc]
  rfl

/-- Witness for C7: `POST /151.101.0.1` is rejected even with a failing
fetch outcome. -/
theorem C7_non_get_rejected_witness :
    mainHandler "POST" "/151.101.0.1" none = .ok ⟨404, "Only GET method is allowed"⟩ :=
  C7_non_get_rejected "POST" "/151.101.0.1" none (by decide)

/-- C8: the backend request carries a caching TTL of exactly one week
(604800 seconds) and the `HOST` header `api.fastly.com`. -/
theorem C8_backend_request_ttl_and_host :
    req_backend.ttl = 604800 ∧ req_backend.hostHeader = "api.fastly.com" :=
  ⟨rfl, rfl⟩

/-- C9: the IPv4 alternative of the shape filter uses an unescaped dot
(any single non-newline character), so the dot-free token `127a0a0a1`
passes the filter; it fails both strict parses, and — whenever both strict
parses fail and the fetch succeeded — the handler answers 404
"Valid IP address not found", so the filter's permissiveness never causes
a non-address to be classified. -/
theorem C9_shape_filter_dot_is_wildcard :
    reMatch "/127a0a0a1" = true
    ∧ ("127a0a0a1".toList.contains '.') = false
    ∧ parseIpv4Addr "127a0a0a1".toList = none
    ∧ parseIpv6Addr "127a0a0a1".toList = none
    ∧ (∀ (path : String) (lists : FastlyIpList),
        parseIpv4Addr (path.toList.drop 1) = none →
        parseIpv6Addr (path.toList.drop 1) = none →
        mainHandler "GET" path (some lists) =
          .ok ⟨404, "Valid IP address not found"⟩) := by
  refine ⟨rfl, rfl, rfl, rfl, ?_⟩
  intro path lists hp4 hp6
  cases hre : reMatch path with
  | false => exact mainHandler_noMatch "GET" path (some lists) rfl hre
  | true => rw [mainHandler_get _ _ hre, hp4, hp6]

/-- Witness for C9: the wildcard-passing token is answered with 404 when
the fetch succeeds. -/
theorem C9_shape_filter_dot_is_wildcard_witness :
    mainHandler "GET" "/127a0a0a1" (some ⟨["151.101.0.0/16"], []⟩) =
      .ok ⟨404, "Valid IP address not found"⟩ :=
  C9_shape_filter_dot_is_wildcard.2.2.2.2 "/127a0a0a1" ⟨["151.101.0.0/16"], []⟩ rfl rfl

/-- C10: for an IPv4 candidate the handler's outcome does not depend on
the IPv6 list at all (so a malformed IPv6 entry can neither change the
result nor cause an error), and symmetrically for an IPv6 candidate the
IPv4 list is never touched. -/
theorem C10_family_isolation :
    (∀ (path : String) (a : Nat) (v4s v6s v6s' : List String),
      parseIpv4Addr (path.toList.drop 1) = some a →
      mainHandler "GET" path (some ⟨v4s, v6s⟩) = mainHandler "GET" path (some ⟨v4s, v6s'⟩))
    ∧ (∀ (path : String) (b : Nat) (v4s v4s' v6s : List String),
      parseIpv4Addr (path.toList.drop 1) = none →
      parseIpv6Addr (path.toList.drop 1) = some b →
      mainHandler "GET" path (some ⟨v4s, v6s⟩) = mainHandler "GET" path (some ⟨v4s', v6s⟩)) := by
  constructor
  · intro path a v4s v6s v6s' hp4
    cases hre : reMatch path with
    | false =>
      rw [mainHandler_noMatch "GET" path _ rfl hre, mainHandler_noMatch "GET" path _ rfl hre]
    | true =>
      rw [mainHandler_get _ _ hre, mainHandler_get _ _ hre, hp4]
  · intro path b v4s v4s' v6s hp4 hp6
    cases hre : reMatch path with
    | false =>
      rw [mainHandler_noMatch "GET" path _ rfl hre, mainHandler_noMatch "GET" path _ rfl hre]
    | true =>
      rw [mainHandler_get _ _ hre, mainHandler_get _ _ hre, hp4, hp6]

/-- Witness for C10: an IPv4 lookup gives the same response whether the
IPv6 list holds garbage or is empty. -/
theorem C10_family_isolation_witness :
    mainHandler "GET" "/151.101.0.1" (some ⟨["151.101.0.0/16"], ["not-a-cidr"]⟩) =
      mainHandler "GET" "/151.101.0.1" (some ⟨["151.101.0.0/16"], []⟩) :=
  C10_family_isolation.1 "/151.101.0.1" 2539978753 ["151.101.0.0/16"] ["not-a-cidr"] [] rfl

/-- C2 counterexample: the claim says any malformed entry fails the whole
parse regardless of earlier containing entries; but with the malformed
entry `999.1.1.1/8` listed after `151.101.0.0/16`, the lookup of
151.101.0.1 succeeds with `true` — the malformed entry is never parsed. -/
theorem C2_counterexample :
    parseIpv4Net "999.1.1.1/8".toList = none
    ∧ mainHandler "GET" "/151.101.0.1"
        (some ⟨["151.101.0.0/16", "999.1.1.1/8"], []⟩) = .ok ⟨200, jsonTrue⟩ :=
  ⟨rfl, rfl⟩

/-- C2 amended: entries are parsed lazily, one at a time, during the
membership scan; a malformed entry fails the request (with an error that
does not identify the entry) exactly when it is reached before any entry
containing the candidate. -/
theorem C2_amended_lazy_entry_parsing :
    (∀ (pre : List String) (bad : String) (rest : List String) (a : Nat),
      (∀ e ∈ pre, ∃ net, parseIpv4Net e.toList = some net ∧ net.contains a = false) →
      parseIpv4Net bad.toList = none →
      v4loop (pre ++ bad :: rest) a = .error .badCidr)
    ∧ (∀ (pre : List String) (bad : String) (rest : List String) (a : Nat),
      (∀ e ∈ pre, ∃ net, parseIpv6Net e.toList = some net ∧ net.contains a = false) →
      parseIpv6Net bad.toList = none →
      v6loop (pre ++ bad :: rest) a = .error .badCidr) := by
  constructor
  · intro pre bad rest a
    induction pre with
    | nil =>
      intro _ hbad
      simp only [String.toList] at hbad
      simp [v4loop, hbad]
    | cons e pre ih =>
      intro hpre hbad
      obtain ⟨net, hparse, hcont⟩ := hpre e (List.mem_cons_self e pre)
      simp only [String.toList] at hparse
      simp [v4loop, hparse, hcont]
      exact ih (fun e' he' => hpre e' (List.mem_cons_of_mem e he')) hbad
  · intro pre bad rest a
    induction pre with
    | nil =>
      intro _ hbad
      simp only [String.toList] at hbad
      simp [v6loop, hbad]
    | cons e pre ih =>
      intro hpre hbad
      obtain ⟨net, hparse, hcont⟩ := hpre e (List.mem_cons_self e pre)
      simp only [String.toList] at hparse
      simp [v6loop, hparse, hcont]
      exact ih (fun e' he' => hpre e' (List.mem_cons_of_mem e he')) hbad

/-- Witness for the amended C2: a malformed entry sitting after a
non-matching entry but before a matching one fails the scan of
151.101.0.1 (value 2539978753). -/
theorem C2_amended_lazy_entry_parsing_witness :
    v4loop (["10.0.0.0/8"] ++ "999.1.1.1/8" :: ["151.101.0.0/16"]) 2539978753 =
      .error .badCidr :=
  C2_amended_lazy_entry_parsing.1 ["10.0.0.0/8"] "999.1.1.1/8" ["151.101.0.0/16"]
    2539978753
    (by
      intro e he
      simp only [List.mem_singleton] at he
      subst he
      exact ⟨Ipv4Net.mk 167772160 8, rfl, rfl⟩)
    rfl

/-- C3 counterexample: the claim says a shape-passing token that fails
strict parsing gets a 404 regardless of the fetch outcome, with the fetch
happening only after a successful parse; but `main.rs` sends the backend
request before parsing the candidate, so `GET /999.999.999.999` with a
failing fetch yields a propagated error, not a 404. -/
theorem C3_counterexample :
    reMatch "/999.999.999.999" = true
    ∧ parseIpv4Addr "999.999.999.999".toList = none
    ∧ parseIpv6Addr "999.999.999.999".toList = none
    ∧ mainHandler "GET" "/999.999.999.999" none = .error .fetchFailed :=
  ⟨rfl, rfl, rfl, rfl⟩

/-- C3 amended: a shape-passing token failing both strict parses is
answered 404 "Valid IP address not found" provided the upstream fetch and
body decode succeeded (the fetch is performed before candidate parsing, so
its failure pre-empts the 404). -/
theorem C3_amended_parse_failure_404_when_fetch_ok
    (path : String) (lists : FastlyIpList)
    (hre : reMatch path = true)
    (hp4 : parseIpv4Addr (path.toList.drop 1) = none)
    (hp6 : parseIpv6Addr (path.toList.drop 1) = none) :
    mainHandler "GET" path (some lists) = .ok ⟨404, "Valid IP address not found"⟩ := by
  rw [mainHandler_get _ _ hre, hp4, hp6]

/-- Witness for the amended C3 at `GET /999.999.999.999` with a successful
fetch. -/
theorem C3_amended_parse_failure_404_when_fetch_ok_witness :
    mainHandler "GET" "/999.999.999.999" (some ⟨["151.101.0.0/16"], ["2a04:4e40::/32"]⟩) =
      .ok ⟨404, "Valid IP address not found"⟩ :=
  C3_amended_parse_failure_404_when_fetch_ok "/999.999.999.999"
    ⟨["151.101.0.0/16"], ["2a04:4e40::/32"]⟩ rfl rfl rfl

/-- C4 counterexample: the claim says that after a previous successful
fetch-and-parse, a later failing fetch is served from the stale data; but
the handler keeps no application-level cache (caching is delegated to the
transport via the TTL directive), so right after a fully successful
request the same lookup with a failing fetch outcome fails the request. -/
theorem C4_counterexample :
    mainHandler "GET" "/151.101.0.1" (some ⟨["151.101.0.0/16"], []⟩) = .ok ⟨200, jsonTrue⟩
    ∧ mainHandler "GET" "/151.101.0.1" none = .error .fetchFailed :=
  ⟨rfl, rfl⟩

/-- C4 amended: on any shape-passing GET, a failed fetch (or body decode)
always fails the request with a propagated error — there is no stale-cache
fallback in the program. -/
theorem C4_amended_fetch_failure_always_fatal (path : String)
    (hre : reMatch path = true) :
    mainHandler "GET" path none = .error .fetchFailed := by
  rw [mainHandler_get _ _ hre]

/-- Witness for the amended C4 at `GET /8.8.4.4`. -/
theorem C4_amended_fetch_failure_always_fatal_witness :
    mainHandler "GET" "/8.8.4.4" none = .error .fetchFailed :=
  C4_amended_fetch_failure_always_fatal "/8.8.4.4" rfl

end IsFastlyIp
